import Mathlib

/-!
Verification of the pmpm environment-provisioning tool (`src/pmpm`).

The Python modules `pmpm/core.py` and `pmpm/packages/__init__.py` are
shallowly embedded below.  Modelling conventions:

* A Python `dict[str, str]` (an insertion-ordered map) is an association
  list `List (String × String)`; `setKey` models `d[k] = v` (update the
  existing entry in place, else append at the end) and `lookupKey` models
  `d[k]` / `k in d`.
* In-place mutation of a dictionary becomes explicit state passing: a
  Python procedure mutating `environ` becomes a Lean function returning
  the updated association list.
* `os.pathsep` is the host path-list separator; the host is Linux, so it
  is the colon.
* Exceptions become `Except String` (the message) or `Option` (for a bare
  `KeyError`).
* `pathlib.Path` values are kept as the strings they render to;
  `pathJoin` models `Path.__truediv__` for the relative, non-absolute
  segments used in this code base (pathlib drops empty segments, which is
  relied upon by the conda-only variant), and `parentStr` models
  `Path.parent` for normalized paths without trailing slashes.
* Filesystem state (`Path.is_file`, `Path.is_dir`) and the ambient process
  environment (`os.environ`) are parameters of the embedded functions;
  `mkdir` side effects of the prefix accessors are omitted (they do not
  affect the returned values).
-/

namespace Pmpm

/-- The host path-list separator (`os.pathsep` on Linux). -/
def pathsep : String := ":"

/-- Lookup in an insertion-ordered dictionary, `d[k]` returning `none` on a
missing key (a Python `KeyError`). -/
def lookupKey {α : Type} : List (String × α) → String → Option α
  | [], _ => none
  | (k', v) :: rest, k => if k' = k then some v else lookupKey rest k

/-- `d[k] = v` on an insertion-ordered dictionary: replace the first entry
with key `k` in place, or append a new entry at the end. -/
def setKey {α : Type} : List (String × α) → String → α → List (String × α)
  | [], k, v => [(k, v)]
  | (k', v') :: rest, k, v =>
    if k' = k then (k, v) :: rest else (k', v') :: setKey rest k v

/-- Split a character list at every occurrence of `sep`: the behaviour of
Python `str.split(sep)` for a one-character separator (`n` separators give
`n + 1` groups, empty groups included). -/
def splitCharList (sep : Char) : List Char → List (List Char)
  | [] => [[]]
  | c :: cs =>
    let r := splitCharList sep cs
    if c = sep then [] :: r else (c :: r.headI) :: r.tail

/-- Join character-list groups with a separator: the inverse of
`splitCharList` (Python `sep.join`). -/
def joinWith (sep : Char) : List (List Char) → List Char
  | [] => []
  | [g] => g
  | g :: gs => g ++ sep :: joinWith sep gs

/-- The groups of a PATH-like value, split at the path separator. -/
def pathEntries (s : String) : List String :=
  (splitCharList ':' s.data).map (fun g => String.mk g)

/-- `str(PurePosixPath(s).parent)`, modelled for normalized paths without
trailing slashes (the only shape this code base feeds it). -/
def parentStr (s : String) : String :=
  match (splitCharList '/' s.data).dropLast with
  | [] => "."
  | [[]] => "/"
  | ps => String.mk (joinWith '/' ps)

/-- `pathlib`'s `p / seg` for the relative segments used in this code base;
pathlib drops empty segments, which the conda-only variant relies on
(an empty subdirectory name means the root prefix itself).  Absolute
segments (which would reset the path) are never used here and are not
modelled. -/
def pathJoin (p seg : String) : String :=
  if seg = "" then p else p ++ "/" ++ seg

/-- `pathlib`'s `p.name`: the last path component. -/
def pathName (s : String) : String :=
  String.mk ((splitCharList '/' s.data).getLastD [])

/-- `pmpm/core.py` `prepend_path`: prepend to PATH in an environment
dictionary (the in-place mutation is modelled by returning the updated
dictionary). -/
def prepend_path (environ : List (String × String)) (path : String) :
    List (String × String) :=
  match lookupKey environ "PATH" with
  | some old => setKey environ "PATH" (path ++ pathsep ++ old)
  | none => setKey environ "PATH" path

/-- `pmpm/core.py` `append_path`: append to PATH in an environment
dictionary. -/
def append_path (environ : List (String × String)) (path : String) :
    List (String × String) :=
  match lookupKey environ "PATH" with
  | some old => setKey environ "PATH" (old ++ pathsep ++ path)
  | none => setKey environ "PATH" path

/-- `pmpm/core.py` `append_env`: append a package to a conda environment
definition unless it is already present. -/
def append_env (dependencies : List String) (package : String) :
    List String :=
  if package ∈ dependencies then dependencies else dependencies ++ [package]

/-- The fields of the `InstallEnvironment` dataclass (`pmpm/core.py`).
`prefix` is rendered `prefix_path` (a Lean keyword clash); paths are the
strings they render to.  The dataclass defaults are irrelevant to the
claims (all statements quantify over field values) and are omitted. -/
structure InstallEnvironment where
  prefix_path : String
  conda_channels : List String
  conda_dependencies : List String
  dependencies : List String
  python_version : String
  conda_prefix_name : String
  compile_prefix_name : String
  download_prefix_name : String
  conda : String
  sub_platform : String
  skip_test : Bool
  skip_conda : Bool
  fast_update : Bool
  nomkl : Option Bool
  update : Option Bool
  arch : String
  tune : String
deriving DecidableEq, Repr

namespace InstallEnvironment

/-- `InstallEnvironment.name`: `self.prefix.name`. -/
def name (e : InstallEnvironment) : String :=
  pathName e.prefix_path

/-- `InstallEnvironment.conda_prefix` (renamed: a Lean keyword cannot end
an identifier): `self.prefix / self.conda_prefix_name`; the `mkdir` side
effect is omitted (it does not change the returned value). -/
def condaPrefixDir (e : InstallEnvironment) : String :=
  pathJoin e.prefix_path e.conda_prefix_name

/-- `InstallEnvironment.compile_prefix` (renamed as above):
`self.prefix / self.compile_prefix_name`, `mkdir` omitted. -/
def compilePrefixDir (e : InstallEnvironment) : String :=
  pathJoin e.prefix_path e.compile_prefix_name

/-- `InstallEnvironment.environ`: a copy of `os.environ` (passed explicitly
as `osEnviron`) with `CONDA_PREFIX` rebound to the grandparent directory of
the `CONDA_EXE` path.  `none` is the `KeyError` raised by
`_dict["CONDA_EXE"]` when that key is absent. -/
def environ (_e : InstallEnvironment) (osEnviron : List (String × String)) :
    Option (List (String × String)) :=
  match lookupKey osEnviron "CONDA_EXE" with
  | none => none
  | some exe => some (setKey osEnviron "CONDA_PREFIX" (parentStr (parentStr exe)))

/-- `InstallEnvironment.environ_with_compile_path`: a copy of `environ`
with the compile-prefix `bin` directory prepended to PATH. -/
def environ_with_compile_path (e : InstallEnvironment)
    (osEnviron : List (String × String)) : Option (List (String × String)) :=
  (e.environ osEnviron).map
    (fun env => prepend_path env (pathJoin (compilePrefixDir e) "bin"))

/-- `InstallEnvironment.environ_with_conda_path`: a copy of `environ` with
the conda-prefix `bin` directory prepended to PATH. -/
def environ_with_conda_path (e : InstallEnvironment)
    (osEnviron : List (String × String)) : Option (List (String × String)) :=
  (e.environ osEnviron).map
    (fun env => prepend_path env (pathJoin (condaPrefixDir e) "bin"))

/-- `InstallEnvironment.environ_with_all_paths`: a copy of
`environ_with_compile_path` with the conda-prefix `bin` directory
prepended to PATH (so the conda entry ends up first). -/
def environ_with_all_paths (e : InstallEnvironment)
    (osEnviron : List (String × String)) : Option (List (String × String)) :=
  (e.environ_with_compile_path osEnviron).map
    (fun env => prepend_path env (pathJoin (condaPrefixDir e) "bin"))

/-- The loop body of `InstallEnvironment.dependencies_versioned`
(core.py lines 179-186): split a dependency string at `=`; one group is an
unversioned name, two groups are name and version, more raise
`RuntimeError`. -/
def parseDep (dep : String) : Except String (String × Option String) :=
  match splitCharList '=' dep.data with
  | [n] => .ok (String.mk n, none)
  | [n, v] => .ok (String.mk n, some (String.mk v))
  | _ => .error ("Invalid dependency " ++ dep)

/-- The `dependencies_versioned` loop: fold the dependency list into the
insertion-ordered result dictionary `res`, stopping at the first invalid
entry. -/
def depsVersionedAux (acc : List (String × Option String)) :
    List String → Except String (List (String × Option String))
  | [] => .ok acc
  | dep :: rest =>
    match parseDep dep with
    | .error e => .error e
    | .ok (n, v) => depsVersionedAux (setKey acc n v) rest

/-- `InstallEnvironment.dependencies_versioned`: the dependency list
resolved into a name-to-optional-version dictionary. -/
def dependencies_versioned (e : InstallEnvironment) :
    Except String (List (String × Option String)) :=
  depsVersionedAux [] e.dependencies

/-- `InstallEnvironment.supported_systems`. -/
def supported_systems : List String := ["Linux", "Darwin", "Windows"]

/-- `InstallEnvironment.windows_exclude_conda_dependencies`. -/
def windows_exclude_conda_dependencies : List String :=
  ["automake", "libaatm", "mpich-mpicc", "libsharp", "healpy", "libtool",
   "mpich-mpicxx", "mpich-mpifort", "suitesparse", "pysm3", "fftw",
   "cfitsio", "lapack", "matplotlib"]

/-- `InstallEnvironment.windows_exclude_dependencies`. -/
def windows_exclude_dependencies : List String := ["libmadam"]

/-- The Windows branch of `InstallEnvironment.__post_init__`
(core.py lines 138-153): substitute a headless matplotlib, drop the
excluded conda dependencies, and drop pmpm dependencies whose name part is
excluded. -/
def windowsFilter (e : InstallEnvironment) : InstallEnvironment :=
  let cd :=
    if "matplotlib" ∈ e.conda_dependencies then
      e.conda_dependencies ++ ["matplotlib-base"]
    else e.conda_dependencies
  let cd := cd.filter (fun dep => !windows_exclude_conda_dependencies.contains dep)
  let deps := e.dependencies.filter (fun dep =>
    !windows_exclude_dependencies.contains (String.mk ((splitCharList '=' dep.data).headI)))
  { e with conda_dependencies := cd, dependencies := deps }

/-- The dependency-pinning tail of `InstallEnvironment.__post_init__`
(core.py lines 167-169): append the pinned python version entry and, when
nomkl is set, the nomkl marker package — both via `append_env`. -/
def postInitPinDeps (deps : List String) (python_version : String)
    (nomkl : Bool) : List String :=
  let d := append_env deps ("python=" ++ python_version)
  if nomkl then append_env d "nomkl" else d

/-- The nomkl branch of `InstallEnvironment.__post_init__` (core.py lines
155-165): an explicit flag wins; otherwise nomkl is the negation of the
probed Intel-vendor answer, and a probe exception is re-raised. -/
def resolveNomkl (nomkl : Option Bool) (intel : Except String Bool) :
    Except String Bool :=
  match nomkl with
  | some b => .ok b
  | none => intel.map (fun i => !i)

/-- `InstallEnvironment.__post_init__`.  `sys` is the `platform.system()`
class variable and `intel` the outcome of `is_intel()` (an exception while
probing the CPU vendor becomes an `Except.error`, matching the
`RuntimeError` re-raised in core.py lines 155-164). -/
def postInit (sys : String) (intel : Except String Bool)
    (e : InstallEnvironment) : Except String InstallEnvironment :=
  if sys ∉ supported_systems then .error ("OS " ++ sys ++ " not supported.")
  else
    let e := if sys = "Windows" then windowsFilter e else e
    match resolveNomkl e.nomkl intel with
    | .error m => .error m
    | .ok nomkl =>
      .ok { e with
            nomkl := some nomkl,
            conda_dependencies :=
              postInitPinDeps e.conda_dependencies e.python_version nomkl }

/-- `CondaOnlyEnvironment.__post_init__` (core.py lines 441-453): run the
base initialiser, reject differing prefix-subdirectory names, then pin
cmake and the BLAS/LAPACK variants.  (`self.nomkl` is always resolved to a
concrete boolean by the base initialiser; `getD` renders that.) -/
def condaOnlyPostInit (sys : String) (intel : Except String Bool)
    (e : InstallEnvironment) : Except String InstallEnvironment :=
  match postInit sys intel e with
  | .error m => .error m
  | .ok e' =>
    if e'.conda_prefix_name ≠ e'.compile_prefix_name then
      .error
        "For conda only environment, conda_prefix_name should equals to compile_prefix_name."
    else
      let cd := append_env e'.conda_dependencies "cmake"
      let cd :=
        if e'.nomkl.getD false then
          append_env (append_env cd "libblas") "liblapack"
        else
          append_env (append_env cd "libblas=*=*mkl") "liblapack=*=*mkl"
      .ok { e' with conda_dependencies := cd }

/-- `check_file` (core.py lines 55-59): error when the path is not a file
(the logging on success is not modelled). -/
def check_file (isFile : String → Bool) (path : String) : Except String String :=
  if isFile path then .ok path else .error (path ++ " not found.")

/-- `InstallEnvironment.conda_bin`: `self.environ["CONDA_EXE"]`, checked to
be a file.  The filesystem is the `isFile` parameter. -/
def conda_bin (e : InstallEnvironment) (osEnviron : List (String × String))
    (isFile : String → Bool) : Except String String :=
  match (e.environ osEnviron).bind (fun m => lookupKey m "CONDA_EXE") with
  | none => .error "KeyError: CONDA_EXE"
  | some exe => check_file isFile exe

/-- `InstallEnvironment.conda_root_prefix` (renamed: a Lean keyword cannot
end an identifier): `self.environ["CONDA_PREFIX"]`, checked to be a
directory. -/
def condaRootPrefixDir (e : InstallEnvironment)
    (osEnviron : List (String × String)) (isDir : String → Bool) :
    Except String String :=
  match (e.environ osEnviron).bind (fun m => lookupKey m "CONDA_PREFIX") with
  | none => .error "KeyError: CONDA_PREFIX"
  | some p => if isDir p then .ok p else .error (p ++ " not found.")

/-- `InstallEnvironment.mamba_bin` (core.py lines 283-295): look for the
configured solver under the conda root prefix; on `check_file` failure,
warn and fall back to `conda_bin` (which itself may raise).  The returned
boolean records that the fallback warning was logged. -/
def mamba_bin (e : InstallEnvironment) (osEnviron : List (String × String))
    (isFile isDir : String → Bool) (sys : String) :
    Except String (Bool × String) :=
  match condaRootPrefixDir e osEnviron isDir with
  | .error m => .error m
  | .ok root =>
    let mamba := if e.conda = "mamba" ∧ sys = "Windows" then "mamba.exe" else e.conda
    let path := pathJoin (pathJoin root "bin") mamba
    if isFile path then .ok (false, path)
    else
      match conda_bin e osEnviron isFile with
      | .error m => .error m
      | .ok p => .ok (true, p)

end InstallEnvironment

/-- The verbs of the package execution policy
(`pmpm/packages/__init__.py`). -/
inductive PackageAction where
  | installEnv
  | updateEnv
  | fastUpdateEnv
deriving DecidableEq, Repr

/-- `GenericPackage.__post_init__` (packages/__init__.py lines 37-44):
resolve the tri-state `update` flag; `is_installed` is whether the
handler's `src_dir` exists. -/
def resolveUpdate (update : Option Bool) (fast_update : Bool)
    (is_installed : Bool) : Bool :=
  match update with
  | some u => u
  | none => if fast_update then true else is_installed

/-- The branch `GenericPackage.run_all` (lines 110-117) takes, given the
resolved `update` flag. -/
def run_all_action (update fast_update : Bool) : PackageAction :=
  if update then
    (if fast_update then .fastUpdateEnv else .updateEnv)
  else .installEnv

/-- The execution path a handler constructed with the given flags ends up
on: `__post_init__` followed by `run_all`. -/
def selectedAction (update : Option Bool) (fast_update is_installed : Bool) :
    PackageAction :=
  run_all_action (resolveUpdate update fast_update is_installed) fast_update

/-- `pmpm.packages.conda.Package.__post_init__` (conda.py lines 20-24): the
conda bootstrap handler overrides the generic heuristic and resolves an
unspecified `update` flag solely from prior-installation detection — the
generic `fast_update` forcing is dropped. -/
def condaResolveUpdate (update : Option Bool) (is_installed : Bool) : Bool :=
  match update with
  | some u => u
  | none => is_installed

/-- The execution path the conda handler ends up on: its own
`__post_init__` override followed by the inherited `run_all`. -/
def condaSelectedAction (update : Option Bool)
    (fast_update is_installed : Bool) : PackageAction :=
  run_all_action (condaResolveUpdate update is_installed) fast_update

/-- Events observable while a handler runs (log warnings and method
bodies). -/
inductive PackageEvent where
  | warnNoFastUpdate
  | runUpdateBody
  | runInstallBody
  | runFastUpdateBody
deriving DecidableEq, Repr

/-- A package handler as the execution policy observes it: which of the
overridable methods the subclass implements, each as the trace its body
would produce.  `none` means the `GenericPackage` base body runs:
`NotImplementedError` for `install_env`/`update_env`, and the
warn-then-full-update fallback for `update_env_fast`.
(`pmpm.packages.conda.Package` implements `install_env` and `update_env`
but not `update_env_fast`; `toast` and `libmadam` implement all three.) -/
structure PackageImpl where
  installImpl : Option (List PackageEvent)
  updateImpl : Option (List PackageEvent)
  fastImpl : Option (List PackageEvent)

namespace PackageImpl

/-- `GenericPackage.install_env` dispatch: the override's body, else
`NotImplementedError`. -/
def install_env (impl : PackageImpl) : Except String (List PackageEvent) :=
  match impl.installImpl with
  | some t => .ok t
  | none => .error "NotImplementedError"

/-- `GenericPackage.update_env` dispatch. -/
def update_env (impl : PackageImpl) : Except String (List PackageEvent) :=
  match impl.updateImpl with
  | some t => .ok t
  | none => .error "NotImplementedError"

/-- `GenericPackage.update_env_fast` dispatch (lines 59-61): an override's
body if present, else log a warning and run the full `update_env`. -/
def update_env_fast (impl : PackageImpl) : Except String (List PackageEvent) :=
  match impl.fastImpl with
  | some t => .ok t
  | none => (update_env impl).map (fun t => PackageEvent.warnNoFastUpdate :: t)

/-- `GenericPackage.run_all` (lines 110-117) as the trace of events it
produces (or the exception it raises). -/
def run_all (impl : PackageImpl) (update fast_update : Bool) :
    Except String (List PackageEvent) :=
  if update then
    (if fast_update then update_env_fast impl else update_env impl)
  else install_env impl

end PackageImpl

/-- The values appearing in the serialized manifest: strings, lists of
strings, booleans, tri-state booleans (JSON bool-or-null), and nested
objects. -/
inductive JVal where
  | jstr : String → JVal
  | jbool : Bool → JVal
  | jopt : Option Bool → JVal
  | jarr : List String → JVal
  | jobj : List (String × JVal) → JVal

/-- Read a manifest value as a string (Python performs no check; a
non-string here would fail later, and never arises below). -/
def JVal.asStr : JVal → Option String
  | .jstr s => some s
  | _ => none

/-- Read a manifest value as a boolean. -/
def JVal.asBool : JVal → Option Bool
  | .jbool b => some b
  | _ => none

/-- Read a manifest value as a tri-state boolean. -/
def JVal.asOpt : JVal → Option (Option Bool)
  | .jopt b => some b
  | _ => none

/-- Read a manifest value as a list of strings. -/
def JVal.asArr : JVal → Option (List String)
  | .jarr l => some l
  | _ => none

/-- Read a manifest value as a nested object. -/
def JVal.asObj : JVal → Option (List (String × JVal))
  | .jobj o => some o
  | _ => none

/-- `InstallEnvironment.to_dict` (core.py lines 189-212): the manifest, an
insertion-ordered dictionary.  Note `prefix` is a top-level key and the
nested `_pmpm` object has no `prefix` key. -/
def InstallEnvironment.to_dict (e : InstallEnvironment) :
    List (String × JVal) :=
  [("name", .jstr e.name),
   ("channels", .jarr e.conda_channels),
   ("dependencies", .jarr e.conda_dependencies),
   ("prefix", .jstr e.prefix_path),
   ("_pmpm", .jobj
     [("dependencies", .jarr e.dependencies),
      ("python_version", .jstr e.python_version),
      ("conda_prefix_name", .jstr e.conda_prefix_name),
      ("compile_prefix_name", .jstr e.compile_prefix_name),
      ("download_prefix_name", .jstr e.download_prefix_name),
      ("conda", .jstr e.conda),
      ("sub_platform", .jstr e.sub_platform),
      ("skip_test", .jbool e.skip_test),
      ("skip_conda", .jbool e.skip_conda),
      ("fast_update", .jbool e.fast_update),
      ("nomkl", .jopt e.nomkl),
      ("update", .jopt e.update),
      ("arch", .jstr e.arch),
      ("tune", .jstr e.tune)])]

/-- `InstallEnvironment.from_dict` (core.py lines 226-245): reconstruct a
descriptor from a manifest.  Each `d[k]` is `Option`-valued (`KeyError`),
evaluated in the argument order of the `cls(...)` call; note the prefix is
read from `data["_pmpm"]["prefix"]`, and `arch`/`tune` are not passed (the
dataclass defaults apply).  The subsequent `__post_init__` run of the
`cls(...)` call is not reached by the claims below (they fail at the
lookups) and is left to `postInit`. -/
def InstallEnvironment.from_dict (data : List (String × JVal)) :
    Option InstallEnvironment := do
  let pmpm ← (lookupKey data "_pmpm").bind JVal.asObj
  let prefixStr ← (lookupKey pmpm "prefix").bind JVal.asStr
  let channels ← (lookupKey data "channels").bind JVal.asArr
  let condaDeps ← (lookupKey data "dependencies").bind JVal.asArr
  let deps ← (lookupKey pmpm "dependencies").bind JVal.asArr
  let pv ← (lookupKey pmpm "python_version").bind JVal.asStr
  let cpn ← (lookupKey pmpm "conda_prefix_name").bind JVal.asStr
  let xpn ← (lookupKey pmpm "compile_prefix_name").bind JVal.asStr
  let dpn ← (lookupKey pmpm "download_prefix_name").bind JVal.asStr
  let cnd ← (lookupKey pmpm "conda").bind JVal.asStr
  let sp ← (lookupKey pmpm "sub_platform").bind JVal.asStr
  let st ← (lookupKey pmpm "skip_test").bind JVal.asBool
  let sc ← (lookupKey pmpm "skip_conda").bind JVal.asBool
  let fu ← (lookupKey pmpm "fast_update").bind JVal.asBool
  let nk ← (lookupKey pmpm "nomkl").bind JVal.asOpt
  let up ← (lookupKey pmpm "update").bind JVal.asOpt
  some { prefix_path := prefixStr, conda_channels := channels,
         conda_dependencies := condaDeps, dependencies := deps,
         python_version := pv, conda_prefix_name := cpn,
         compile_prefix_name := xpn, download_prefix_name := dpn,
         conda := cnd, sub_platform := sp, skip_test := st, skip_conda := sc,
         fast_update := fu, nomkl := nk, update := up,
         arch := "x86-64-v3", tune := "generic" }

/-- A concrete descriptor used by the witnesses and counterexamples below
(the default field values of the dataclass, with a resolved nomkl). -/
def sampleEnv : InstallEnvironment :=
  { prefix_path := "/tmp/env1", conda_channels := ["conda-forge", "nodefaults"],
    conda_dependencies := ["astropy", "cmake"], dependencies := ["toast"],
    python_version := "3.10", conda_prefix_name := "conda",
    compile_prefix_name := "compile", download_prefix_name := "git",
    conda := "mamba", sub_platform := "", skip_test := false,
    skip_conda := false, fast_update := false, nomkl := some true,
    update := none, arch := "x86-64-v3", tune := "generic" }

/-- A concrete ambient process environment used by the witnesses below. -/
def sampleOsEnv : List (String × String) :=
  [("CONDA_EXE", "/opt/conda/bin/conda"), ("PATH", "/usr/bin")]

theorem strMk_data (s : String) : String.mk s.data = s := rfl

theorem strData_append (a b : String) : (a ++ b).data = a.data ++ b.data := rfl

theorem splitCharList_ne_nil (sep : Char) (l : List Char) :
    splitCharList sep l ≠ [] := by
  cases l with
  | nil => simp [splitCharList]
  | cons c cs => by_cases h : c = sep <;> simp [splitCharList, h]

theorem splitCharList_length (sep : Char) (l : List Char) :
    (splitCharList sep l).length = l.count sep + 1 := by
  induction l with
  | nil => simp [splitCharList]
  | cons c cs ih =>
    by_cases h : c = sep
    · simp [splitCharList, h, ih, List.count_cons]
    · have hpos : 0 < (splitCharList sep cs).length :=
        List.length_pos.mpr (splitCharList_ne_nil sep cs)
      have hne : ¬sep = c := fun hh => h hh.symm
      simp [splitCharList, h, hne, List.count_cons, List.length_tail]
      omega

theorem splitCharList_no_sep (sep : Char) (l : List Char) (h : sep ∉ l) :
    splitCharList sep l = [l] := by
  induction l with
  | nil => simp [splitCharList]
  | cons c cs ih =>
    have hc : ¬c = sep := by
      rintro rfl
      exact h (List.mem_cons_self c cs)
    have hcs : sep ∉ cs := fun hm => h (List.mem_cons_of_mem c hm)
    simp [splitCharList, hc, ih hcs]

theorem splitCharList_append (sep : Char) (a b : List Char) (h : sep ∉ a) :
    splitCharList sep (a ++ sep :: b) = a :: splitCharList sep b := by
  induction a with
  | nil => simp [splitCharList]
  | cons c cs ih =>
    have hc : ¬c = sep := by
      rintro rfl
      exact h (List.mem_cons_self c cs)
    have hcs : sep ∉ cs := fun hm => h (List.mem_cons_of_mem c hm)
    simp [splitCharList, hc, ih hcs]

theorem lookupKey_setKey_self (d : List (String × String)) (k v : String) :
    lookupKey (setKey d k v) k = some v := by
  induction d with
  | nil => simp [setKey, lookupKey]
  | cons hd tl ih =>
    obtain ⟨k', v'⟩ := hd
    by_cases h : k' = k
    · simp [setKey, lookupKey, h]
    · simp [setKey, lookupKey, h, ih]

theorem lookupKey_setKey_other (d : List (String × String)) (k k' v : String)
    (h : k' ≠ k) : lookupKey (setKey d k v) k' = lookupKey d k' := by
  have h' : ¬k = k' := fun hh => h hh.symm
  induction d with
  | nil => simp [setKey, lookupKey, h']
  | cons hd tl ih =>
    obtain ⟨k₀, v₀⟩ := hd
    by_cases h₀ : k₀ = k
    · subst h₀
      simp [setKey, lookupKey, h']
    · simp [setKey, lookupKey, h₀, ih]

theorem prepend_path_lookup_absent (d : List (String × String)) (p : String)
    (h : lookupKey d "PATH" = none) :
    lookupKey (prepend_path d p) "PATH" = some p := by
  simp [prepend_path, h, lookupKey_setKey_self]

theorem prepend_path_lookup_present (d : List (String × String))
    (p old : String) (h : lookupKey d "PATH" = some old) :
    lookupKey (prepend_path d p) "PATH" = some (p ++ pathsep ++ old) := by
  simp [prepend_path, h, lookupKey_setKey_self]

theorem prepend_path_lookup_other (d : List (String × String)) (p k : String)
    (h : k ≠ "PATH") : lookupKey (prepend_path d p) k = lookupKey d k := by
  cases h' : lookupKey d "PATH" <;>
    simp [prepend_path, h', lookupKey_setKey_other _ _ _ _ h]

theorem append_env_mem (deps : List String) (p : String) (h : p ∈ deps) :
    append_env deps p = deps := by
  simp [append_env, h]

theorem append_env_count (deps : List String) (p : String) :
    List.count p (append_env deps p) =
      if p ∈ deps then List.count p deps else 1 := by
  by_cases h : p ∈ deps
  · simp [append_env, h]
  · simp [append_env, h, List.count_eq_zero_of_not_mem h]

theorem append_env_nodup (deps : List String) (p : String)
    (h : deps.Nodup) : (append_env deps p).Nodup := by
  by_cases hm : p ∈ deps
  · simpa [append_env, hm] using h
  · simp [append_env, hm, List.nodup_append, h]

theorem mem_append_env_self (deps : List String) (p : String) :
    p ∈ append_env deps p := by
  by_cases h : p ∈ deps <;> simp [append_env, h]

theorem mem_append_env_of_mem (deps : List String) (p q : String)
    (h : q ∈ deps) : q ∈ append_env deps p := by
  by_cases h' : p ∈ deps <;> simp [append_env, h', h]

theorem depsVersionedAux_error (dep : String) (m' : String)
    (hp : InstallEnvironment.parseDep dep = .error m') :
    ∀ (deps : List String), dep ∈ deps → ∀ acc,
      ∃ m, InstallEnvironment.depsVersionedAux acc deps = .error m := by
  intro deps
  induction deps with
  | nil => intro hmem; cases hmem
  | cons hd tl ih =>
    intro hmem acc
    rcases List.mem_cons.mp hmem with h | h
    · subst h
      exact ⟨m', by simp [InstallEnvironment.depsVersionedAux, hp]⟩
    · cases hph : InstallEnvironment.parseDep hd with
      | error mm =>
        exact ⟨mm, by simp [InstallEnvironment.depsVersionedAux, hph]⟩
      | ok p =>
        obtain ⟨pn, pv⟩ := p
        obtain ⟨m, hm⟩ := ih h (setKey acc pn pv)
        exact ⟨m, by simp [InstallEnvironment.depsVersionedAux, hph, hm]⟩

theorem windowsFilter_conda_prefix_name (e : InstallEnvironment) :
    (InstallEnvironment.windowsFilter e).conda_prefix_name =
      e.conda_prefix_name := rfl

theorem windowsFilter_compile_prefix_name (e : InstallEnvironment) :
    (InstallEnvironment.windowsFilter e).compile_prefix_name =
      e.compile_prefix_name := rfl

theorem postInit_preserves_names (sys : String) (intel : Except String Bool)
    (e e' : InstallEnvironment)
    (h : InstallEnvironment.postInit sys intel e = .ok e') :
    e'.conda_prefix_name = e.conda_prefix_name ∧
      e'.compile_prefix_name = e.compile_prefix_name := by
  by_cases hs : sys ∈ InstallEnvironment.supported_systems
  · simp [InstallEnvironment.supported_systems] at hs
    rcases hs with rfl | rfl | rfl
    · cases hnk : InstallEnvironment.resolveNomkl e.nomkl intel with
      | error m =>
        simp [InstallEnvironment.postInit, InstallEnvironment.supported_systems,
          hnk] at h
      | ok b =>
        simp [InstallEnvironment.postInit, InstallEnvironment.supported_systems,
          hnk] at h
        subst h
        exact ⟨rfl, rfl⟩
    · cases hnk : InstallEnvironment.resolveNomkl e.nomkl intel with
      | error m =>
        simp [InstallEnvironment.postInit, InstallEnvironment.supported_systems,
          hnk] at h
      | ok b =>
        simp [InstallEnvironment.postInit, InstallEnvironment.supported_systems,
          hnk] at h
        subst h
        exact ⟨rfl, rfl⟩
    · cases hnk : InstallEnvironment.resolveNomkl
          (InstallEnvironment.windowsFilter e).nomkl intel with
      | error m =>
        simp [InstallEnvironment.postInit, InstallEnvironment.supported_systems,
          hnk] at h
      | ok b =>
        simp [InstallEnvironment.postInit, InstallEnvironment.supported_systems,
          hnk] at h
        subst h
        exact ⟨rfl, rfl⟩
  · simp [InstallEnvironment.postInit, hs] at h

/-- Claim C6: `prepend_path` produces a mapping in which the path is
prepended to the PATH entry (creating it if absent) with the host
path-list separator, touches no other entry (in the shallow embedding the
in-place update is explicit state passing, so the returned mapping is the
entire effect), and satisfies the two concrete examples of the spec. -/
theorem claim_prepend_path_contract :
    (∀ (d : List (String × String)) (p k : String), k ≠ "PATH" →
      lookupKey (prepend_path d p) k = lookupKey d k) ∧
    (∀ (d : List (String × String)) (p : String), lookupKey d "PATH" = none →
      lookupKey (prepend_path d p) "PATH" = some p) ∧
    (∀ (d : List (String × String)) (p old : String),
      lookupKey d "PATH" = some old →
      lookupKey (prepend_path d p) "PATH" = some (p ++ pathsep ++ old)) ∧
    prepend_path [] "/a" = [("PATH", "/a")] ∧
    prepend_path [("PATH", "/b")] "/a" = [("PATH", "/a:/b")] :=
  ⟨prepend_path_lookup_other, prepend_path_lookup_absent,
    prepend_path_lookup_present, rfl, rfl⟩

/-- Witness for C6 at a concrete dictionary: a non-PATH entry is
untouched. -/
theorem claim_prepend_path_contract_witness :
    lookupKey (prepend_path [("PATH", "/b"), ("HOME", "/root")] "/a") "HOME" =
      some "/root" :=
  claim_prepend_path_contract.1 [("PATH", "/b"), ("HOME", "/root")] "/a" "HOME"
    (by decide)

/-- Claim C9: `append_env` is idempotent — appending an already-present
package string is a no-op, appending preserves duplicate-freedom, and the
construction-time pinning adds the python version entry and (when nomkl is
set) the nomkl marker without ever producing duplicates. -/
theorem claim_append_env_idempotent :
    (∀ (deps : List String) (p : String), p ∈ deps →
      append_env deps p = deps) ∧
    (∀ (deps : List String) (p : String), deps.Nodup →
      (append_env deps p).Nodup) ∧
    (∀ (deps : List String) (pv : String) (nomkl : Bool), deps.Nodup →
      (InstallEnvironment.postInitPinDeps deps pv nomkl).Nodup ∧
      ("python=" ++ pv) ∈ InstallEnvironment.postInitPinDeps deps pv nomkl ∧
      (nomkl = true →
        "nomkl" ∈ InstallEnvironment.postInitPinDeps deps pv nomkl)) := by
  refine ⟨append_env_mem, append_env_nodup, ?_⟩
  intro deps pv nomkl h
  unfold InstallEnvironment.postInitPinDeps
  cases nomkl with
  | false =>
    simp only [Bool.false_eq_true, if_false, false_implies, and_true]
    exact ⟨append_env_nodup _ _ h, mem_append_env_self _ _⟩
  | true =>
    simp only [if_true, true_implies]
    exact ⟨append_env_nodup _ _ (append_env_nodup _ _ h),
      mem_append_env_of_mem _ _ _ (mem_append_env_self _ _),
      mem_append_env_self _ _⟩

/-- Witness for C9: appending an already-present package is a no-op, and
pinning on a duplicate-free list stays duplicate-free. -/
theorem claim_append_env_idempotent_witness :
    append_env ["numpy", "scipy"] "numpy" = ["numpy", "scipy"] :=
  claim_append_env_idempotent.1 ["numpy", "scipy"] "numpy" (by decide)

/-- Claim C3 as stated is refuted by the conda bootstrap handler: its
`__post_init__` override drops the `fast_update` forcing, so constructed
with no explicit update flag, `fast_update=true` and a non-existent target
directory it selects the install path, not the fast-update path the claim
demands for every handler regardless of directory existence. -/
theorem claim_execution_policy_counterexample :
    condaSelectedAction none true false = PackageAction.installEnv ∧
    condaSelectedAction none true false ≠ PackageAction.fastUpdateEnv := by
  decide

/-- Claim C3 amended: for every handler using the generic construction
policy (all handlers except the conda bootstrap handler) — with no
explicit update flag a missing target directory selects install, an
existing one selects update, and `fast_update` forces the fast-update path
regardless of directory existence; an explicit update flag is honored
directly by every handler, the conda one included.  The conda handler
resolves an unspecified flag solely from prior-installation detection:
with `fast_update=true` and no explicit flag it selects fast-update only
when the target exists, and install when it does not. -/
theorem claim_execution_policy_amended :
    (∀ inst : Bool, selectedAction none false inst =
      (if inst then PackageAction.updateEnv else PackageAction.installEnv)) ∧
    (∀ inst : Bool, selectedAction none true inst =
      PackageAction.fastUpdateEnv) ∧
    (∀ u fu inst : Bool, resolveUpdate (some u) fu inst = u) ∧
    (∀ u fu inst : Bool, selectedAction (some u) fu inst =
      run_all_action u fu) ∧
    (∀ inst : Bool, condaSelectedAction none true inst =
      (if inst then PackageAction.fastUpdateEnv
        else PackageAction.installEnv)) ∧
    (∀ inst : Bool, condaSelectedAction none false inst =
      (if inst then PackageAction.updateEnv else PackageAction.installEnv)) ∧
    (∀ u inst : Bool, condaResolveUpdate (some u) inst = u) ∧
    (∀ u fu inst : Bool, condaSelectedAction (some u) fu inst =
      run_all_action u fu) := by
  refine ⟨?_, ?_, ?_, ?_, ?_, ?_, ?_, ?_⟩ <;> decide

/-- Claim C4: a handler without a fast-update override, run with
`update=true` and `fast_update=true`, executes the full update path
preceded by the logged warning; no error arises from the missing
fast-update implementation. -/
theorem claim_fast_update_fallback (impl : PackageImpl)
    (t : List PackageEvent) (hfast : impl.fastImpl = none)
    (hupd : impl.updateImpl = some t) :
    PackageImpl.run_all impl true true =
      .ok (PackageEvent.warnNoFastUpdate :: t) := by
  simp [PackageImpl.run_all, PackageImpl.update_env_fast,
    PackageImpl.update_env, hfast, hupd, Except.map]

/-- Witness for C4: the shape of `pmpm.packages.conda.Package`, which
implements install and update bodies but no fast-update override. -/
theorem claim_fast_update_fallback_witness :
    PackageImpl.run_all
      ⟨some [PackageEvent.runInstallBody], some [PackageEvent.runUpdateBody],
        none⟩ true true =
      .ok [PackageEvent.warnNoFastUpdate, PackageEvent.runUpdateBody] :=
  claim_fast_update_fallback _ _ rfl rfl

/-- Claim C10: the base environment accessor raises `KeyError` when
`CONDA_EXE` is absent from the ambient environment; otherwise the returned
mapping has `CONDA_PREFIX` rebound to the grandparent directory of the
`CONDA_EXE` path, overriding any inherited `CONDA_PREFIX` value. -/
theorem claim_environ_conda_exe (e : InstallEnvironment)
    (osEnviron : List (String × String)) :
    (lookupKey osEnviron "CONDA_EXE" = none → e.environ osEnviron = none) ∧
    (∀ exe : String, lookupKey osEnviron "CONDA_EXE" = some exe →
      ∃ m, e.environ osEnviron = some m ∧
        lookupKey m "CONDA_PREFIX" = some (parentStr (parentStr exe))) := by
  constructor
  · intro h
    simp [InstallEnvironment.environ, h]
  · intro exe h
    exact ⟨setKey osEnviron "CONDA_PREFIX" (parentStr (parentStr exe)),
      by simp [InstallEnvironment.environ, h], lookupKey_setKey_self _ _ _⟩

/-- Witness for C10: with `CONDA_EXE=/opt/conda/bin/conda` the returned
mapping rebinds `CONDA_PREFIX` to `/opt/conda`, overriding the inherited
`/other`. -/
theorem claim_environ_conda_exe_witness :
    ∃ m, InstallEnvironment.environ sampleEnv
        [("CONDA_EXE", "/opt/conda/bin/conda"), ("CONDA_PREFIX", "/other")] =
        some m ∧
      lookupKey m "CONDA_PREFIX" = some "/opt/conda" :=
  (claim_environ_conda_exe sampleEnv
    [("CONDA_EXE", "/opt/conda/bin/conda"), ("CONDA_PREFIX", "/other")]).2
    "/opt/conda/bin/conda" rfl

/-- Claim C7: constructing a conda-only descriptor whose conda and compile
prefix subdirectory names differ fails with a configuration error; the
construction is pure validation and spawns no external process. -/
theorem claim_conda_only_mismatch (sys : String) (intel : Except String Bool)
    (e : InstallEnvironment)
    (h : e.conda_prefix_name ≠ e.compile_prefix_name) :
    ∃ m, InstallEnvironment.condaOnlyPostInit sys intel e = .error m := by
  cases hp : InstallEnvironment.postInit sys intel e with
  | error m =>
    exact ⟨m, by simp [InstallEnvironment.condaOnlyPostInit, hp]⟩
  | ok e' =>
    obtain ⟨h1, h2⟩ := postInit_preserves_names sys intel e e' hp
    refine ⟨"For conda only environment, conda_prefix_name should equals to compile_prefix_name.", ?_⟩
    simp [InstallEnvironment.condaOnlyPostInit, hp, h1, h2, h]

/-- Witness for C7: the general defaults (`conda` vs `compile`) fed to the
conda-only initialiser fail. -/
theorem claim_conda_only_mismatch_witness :
    ∃ m, InstallEnvironment.condaOnlyPostInit "Linux" (Except.ok true)
      sampleEnv = .error m :=
  claim_conda_only_mismatch "Linux" (Except.ok true) sampleEnv (by decide)

/-- Claim C5: splitting a dependency string at `=` — zero separators give
the bare name with no version, one separator gives the name and the
version after the separator, and two or more separators are rejected with
a configuration error, which also makes the whole dependency resolution
fail. -/
theorem claim_dependency_versioned :
    (∀ dep : String, '=' ∉ dep.data →
      InstallEnvironment.parseDep dep = .ok (dep, none)) ∧
    (∀ n v : List Char, '=' ∉ n → '=' ∉ v →
      InstallEnvironment.parseDep (String.mk (n ++ '=' :: v)) =
        .ok (String.mk n, some (String.mk v))) ∧
    (∀ dep : String, 2 ≤ dep.data.count '=' →
      InstallEnvironment.parseDep dep =
        .error ("Invalid dependency " ++ dep)) ∧
    (∀ (e : InstallEnvironment) (dep : String), dep ∈ e.dependencies →
      2 ≤ dep.data.count '=' →
      ∃ m, InstallEnvironment.dependencies_versioned e = .error m) := by
  have h3 : ∀ dep : String, 2 ≤ dep.data.count '=' →
      InstallEnvironment.parseDep dep =
        .error ("Invalid dependency " ++ dep) := by
    intro dep h
    have hlen := splitCharList_length '=' dep.data
    rcases hsp : splitCharList '=' dep.data with
      _ | ⟨g0, _ | ⟨g1, _ | ⟨g2, rest⟩⟩⟩
    · exact absurd hsp (splitCharList_ne_nil '=' dep.data)
    · rw [hsp] at hlen
      simp at hlen
      omega
    · rw [hsp] at hlen
      simp at hlen
      omega
    · simp [InstallEnvironment.parseDep, hsp]
  refine ⟨?_, ?_, h3, ?_⟩
  · intro dep h
    simp [InstallEnvironment.parseDep, splitCharList_no_sep '=' dep.data h,
      strMk_data]
  · intro n v hn hv
    have hsp : splitCharList '=' (String.mk (n ++ '=' :: v)).data = [n, v] := by
      show splitCharList '=' (n ++ '=' :: v) = [n, v]
      rw [splitCharList_append '=' n v hn, splitCharList_no_sep '=' v hv]
    simp [InstallEnvironment.parseDep, hsp]
  · intro e dep hmem hcnt
    exact depsVersionedAux_error dep _ (h3 dep hcnt) e.dependencies hmem []

/-- Witness for C5: a dependency string with two separators is rejected. -/
theorem claim_dependency_versioned_witness :
    InstallEnvironment.parseDep "a==b" =
      .error ("Invalid dependency " ++ "a==b") :=
  claim_dependency_versioned.2.2.1 "a==b" (by decide)

/-- Claim C2 as stated is refuted at a concrete descriptor: in the
all-paths view the compile-prefix bin directory does NOT come before the
conda-prefix bin directory in the PATH value (the conda entry is prepended
last, hence first in PATH). -/
theorem claim_all_paths_counterexample :
    ((InstallEnvironment.environ_with_all_paths sampleEnv sampleOsEnv).bind
        (fun m => lookupKey m "PATH")) =
      some "/tmp/env1/conda/bin:/tmp/env1/compile/bin:/usr/bin" ∧
    ¬ (pathEntries
          "/tmp/env1/conda/bin:/tmp/env1/compile/bin:/usr/bin").indexOf
        (pathJoin (InstallEnvironment.compilePrefixDir sampleEnv) "bin") <
      (pathEntries
          "/tmp/env1/conda/bin:/tmp/env1/compile/bin:/usr/bin").indexOf
        (pathJoin (InstallEnvironment.condaPrefixDir sampleEnv) "bin") := by
  constructor
  · rfl
  · decide

/-- Claim C2 amended: for every descriptor and base environment that
supplies `CONDA_EXE` (with the conda bin path free of the path separator
and distinct from the compile bin path), the all-paths view lists the
conda-prefix bin directory before the compile-prefix bin directory in the
PATH value — conda's binaries take lookup precedence, as the spec's fixed
policy intends. -/
theorem claim_all_paths_conda_first (e : InstallEnvironment)
    (osEnviron : List (String × String)) (exe : String)
    (hexe : lookupKey osEnviron "CONDA_EXE" = some exe)
    (hsep : ':' ∉ (pathJoin (InstallEnvironment.condaPrefixDir e) "bin").data)
    (hne : pathJoin (InstallEnvironment.compilePrefixDir e) "bin" ≠
      pathJoin (InstallEnvironment.condaPrefixDir e) "bin") :
    ∃ s, (InstallEnvironment.environ_with_all_paths e osEnviron).bind
        (fun m => lookupKey m "PATH") = some s ∧
      (pathEntries s).indexOf
          (pathJoin (InstallEnvironment.condaPrefixDir e) "bin") <
        (pathEntries s).indexOf
          (pathJoin (InstallEnvironment.compilePrefixDir e) "bin") := by
  have henv : e.environ osEnviron =
      some (setKey osEnviron "CONDA_PREFIX" (parentStr (parentStr exe))) := by
    simp [InstallEnvironment.environ, hexe]
  obtain ⟨t, ht⟩ : ∃ t,
      lookupKey (prepend_path
        (setKey osEnviron "CONDA_PREFIX" (parentStr (parentStr exe)))
        (pathJoin (InstallEnvironment.compilePrefixDir e) "bin")) "PATH" =
        some t := by
    cases hp : lookupKey
        (setKey osEnviron "CONDA_PREFIX" (parentStr (parentStr exe)))
        "PATH" with
    | none => exact ⟨_, prepend_path_lookup_absent _ _ hp⟩
    | some old => exact ⟨_, prepend_path_lookup_present _ _ old hp⟩
  have hall : (InstallEnvironment.environ_with_all_paths e osEnviron).bind
      (fun m => lookupKey m "PATH") =
      some (pathJoin (InstallEnvironment.condaPrefixDir e) "bin" ++
        pathsep ++ t) := by
    simp only [InstallEnvironment.environ_with_all_paths,
      InstallEnvironment.environ_with_compile_path, henv, Option.map_some,
      Option.bind_some]
    exact prepend_path_lookup_present _ _ t ht
  refine ⟨_, hall, ?_⟩
  have hdata : (pathJoin (InstallEnvironment.condaPrefixDir e) "bin" ++
      pathsep ++ t).data =
      (pathJoin (InstallEnvironment.condaPrefixDir e) "bin").data ++
        ':' :: t.data := by
    rw [strData_append, strData_append, List.append_assoc]
    rfl
  have hentries : pathEntries (pathJoin
      (InstallEnvironment.condaPrefixDir e) "bin" ++ pathsep ++ t) =
      pathJoin (InstallEnvironment.condaPrefixDir e) "bin" ::
        pathEntries t := by
    simp [pathEntries, hdata, splitCharList_append ':' _ t.data hsep,
      strMk_data]
  rw [hentries, List.indexOf_cons_self,
    List.indexOf_cons_ne _ (Ne.symm hne)]
  exact Nat.succ_pos _

/-- Witness for C2's amended statement at the concrete descriptor used in
the counterexample. -/
theorem claim_all_paths_conda_first_witness :
    ∃ s, (InstallEnvironment.environ_with_all_paths sampleEnv
        sampleOsEnv).bind (fun m => lookupKey m "PATH") = some s ∧
      (pathEntries s).indexOf
          (pathJoin (InstallEnvironment.condaPrefixDir sampleEnv) "bin") <
        (pathEntries s).indexOf
          (pathJoin (InstallEnvironment.compilePrefixDir sampleEnv) "bin") :=
  claim_all_paths_conda_first sampleEnv sampleOsEnv "/opt/conda/bin/conda"
    rfl (by decide) (by decide)

/-- Claim C8 as stated is refuted at a concrete input: when neither the
preferred solver binary nor the baseline conda binary is a file,
`mamba_bin` fails hard (the fallback re-checks `conda_bin`, whose
`check_file` raises). -/
theorem claim_mamba_bin_counterexample :
    InstallEnvironment.mamba_bin sampleEnv sampleOsEnv (fun _ => false)
      (fun _ => true) "Linux" =
      .error ("/opt/conda/bin/conda" ++ " not found.") := rfl

/-- Claim C8 amended: when the prerequisites of discovery hold (`CONDA_EXE`
set, the conda root prefix a directory, the baseline conda binary a file)
and the preferred solver binary is absent, `mamba_bin` falls back to the
baseline conda binary with a warning instead of raising; discovery can
still fail hard when the baseline binary itself is missing. -/
theorem claim_mamba_bin_fallback (e : InstallEnvironment)
    (osEnviron : List (String × String)) (exe : String)
    (isFile isDir : String → Bool) (sys : String)
    (hexe : lookupKey osEnviron "CONDA_EXE" = some exe)
    (hdir : isDir (parentStr (parentStr exe)) = true)
    (hmamba : isFile (pathJoin (pathJoin (parentStr (parentStr exe)) "bin")
        (if e.conda = "mamba" ∧ sys = "Windows" then "mamba.exe"
          else e.conda)) = false)
    (hconda : isFile exe = true) :
    InstallEnvironment.mamba_bin e osEnviron isFile isDir sys =
      .ok (true, exe) := by
  have henv : e.environ osEnviron =
      some (setKey osEnviron "CONDA_PREFIX" (parentStr (parentStr exe))) := by
    simp [InstallEnvironment.environ, hexe]
  have hlook : lookupKey (setKey osEnviron "CONDA_PREFIX"
      (parentStr (parentStr exe))) "CONDA_PREFIX" =
      some (parentStr (parentStr exe)) := lookupKey_setKey_self _ _ _
  have hlook2 : lookupKey (setKey osEnviron "CONDA_PREFIX"
      (parentStr (parentStr exe))) "CONDA_EXE" = some exe :=
    (lookupKey_setKey_other osEnviron "CONDA_PREFIX" "CONDA_EXE"
      (parentStr (parentStr exe)) (by decide)).trans hexe
  simp [InstallEnvironment.mamba_bin, InstallEnvironment.condaRootPrefixDir,
    InstallEnvironment.conda_bin, InstallEnvironment.check_file, henv,
    hlook, hlook2, hdir, hmamba, hconda]

/-- Witness for C8's amended statement: a filesystem holding exactly the
baseline conda binary. -/
theorem claim_mamba_bin_fallback_witness :
    InstallEnvironment.mamba_bin sampleEnv sampleOsEnv
      (fun p => p == "/opt/conda/bin/conda") (fun _ => true) "Linux" =
      .ok (true, "/opt/conda/bin/conda") :=
  claim_mamba_bin_fallback sampleEnv sampleOsEnv "/opt/conda/bin/conda"
    (fun p => p == "/opt/conda/bin/conda") (fun _ => true) "Linux"
    rfl rfl (by decide) (by decide)

/-- Claim C1 (a code bug): the round trip fails for every descriptor —
`from_dict` reads the prefix from `data["_pmpm"]["prefix"]`, a key that
`to_dict` never writes (the prefix is stored only at top level), so
deserializing a serialized manifest raises `KeyError` unconditionally
(and `arch`/`tune`, though serialized, are never passed back either). -/
theorem claim_round_trip_keyerror (e : InstallEnvironment) :
    InstallEnvironment.from_dict (InstallEnvironment.to_dict e) = none := rfl

end Pmpm
